import Mathlib

/-!
Verification development for the `InteractionData` KPI-telemetry module of the
browserid dialog (`resources/static/common/js/modules/interaction_data.js`,
started from `resources/static/dialog/js/start.js`).

The JavaScript module is shallowly embedded: event tuples are JS arrays of
primitive values, module fields become an explicit state record, the message
bus / DOM / network collaborators become explicit parameters, and the one
asynchronous step (publish previous record, then decide sampling inside the
completion callback) is sequenced explicitly with an action trace.
-/

namespace BrowserID

/-- JS primitive values that appear inside event tuples. -/
inductive JsVal where
  | str (s : String)
  | num (n : Int)
  | undef
  | nan
deriving DecidableEq, Repr

/-- An event tuple is a JS array `[name, offsetMs, durationMs?, repeatCount?]`;
sparse writes (`a[3] = v` on a 2-element array) fill the gap with `undef`. -/
abbrev Tuple := List JsVal

/-- JS array read `a[i]`: out-of-range reads give `undefined`. -/
def jsGet : Tuple → Nat → JsVal
  | [], _ => .undef
  | v :: _, 0 => v
  | _ :: t, i + 1 => jsGet t i

/-- JS array write `a[i] = v`: out-of-range writes extend the array, filling
skipped slots with `undefined`. -/
def jsSet : Tuple → Nat → JsVal → Tuple
  | [], 0, v => [v]
  | [], i + 1, v => .undef :: jsSet [] i v
  | _ :: t, 0, v => v :: t
  | h :: t, i + 1, v => h :: jsSet t i v

/-- JS truthiness of a primitive value. -/
def jsTruthy : JsVal → Bool
  | .str s => s ≠ ""
  | .num n => n ≠ 0
  | .undef => false
  | .nan => false

/-- JS `v || 1` (used for `lastEvent[REPEAT_COUNT_INDEX] || 1`). -/
def jsOr1 (v : JsVal) : JsVal := if jsTruthy v then v else .num 1

/-- JS `v++` on a counter value; non-numeric operands (which never occur at the
repeat-count slot in reachable states) coerce to NaN. -/
def jsIncr : JsVal → JsVal
  | .num n => .num (n + 1)
  | _ => .nan

/-- JS `v + d` for a number `d` (used for `event[1] += delta`): numbers add,
strings concatenate, `undefined`/NaN poison to NaN. -/
def jsAdd : JsVal → Int → JsVal
  | .num n, d => .num (n + d)
  | .str s, d => .str (s ++ toString d)
  | .undef, _ => .nan
  | .nan, _ => .nan

/-- JS truthiness of an optional string (absent or empty is falsy). -/
def jsTruthyS : Option String → Bool
  | none => false
  | some s => s ≠ ""

/-- JS `s || null`: an empty string collapses to null. -/
def jsOrNull (o : Option String) : Option String :=
  match o with
  | some s => if s = "" then none else some s
  | none => none

/-- JS `data.eventTime || new Date()`: an absent or zero event time falls back
to the current time. -/
def jsEventTime (eventTime : Option Int) (now : Int) : Int :=
  match eventTime with
  | some t => if t = 0 then now else t
  | none => now

/-- Date values are modelled as epoch milliseconds; `toString` is the string
form persisted in `local_timestamp`. -/
def jsDateToString (t : Int) : String := toString t

/-- JS `Date.parse` applied to the module's own `local_timestamp` string form;
an absent or unparsable string (NaN in JS) is collapsed to 0, which no modelled
flow ever reads back. -/
def jsDateParse (s : Option String) : Int := ((s.getD "").toInt?).getD 0

/-- `data.network` sub-payload of a mediator message. -/
structure NetworkInfo where
  type : Option String := none
  url : Option String := none
  status : Option Int := none
deriving DecidableEq, Repr

/-- `data.action` sub-payload of an `error_screen` message. `key` is the result
of the known-error reverse lookup `_.keyOf(errors, data.action)` (the `errors`
table lives outside these sources, so the resolved key is carried on the
payload); `title` is `data.action.title`. -/
structure ErrorAction where
  key : Option String := none
  title : Option String := none
deriving DecidableEq, Repr

/-- A mediator message payload, restricted to the fields the module reads.
`timeValue` is the numeric value of a payload that is itself a timestamp (the
`start_time` message passes the new start time as the whole payload); only
numeric `start_time` payloads are modelled. -/
structure Payload where
  network : Option NetworkInfo := none
  name : Option String := none
  action : Option ErrorAction := none
  eventTime : Option Int := none
  duration : Option Int := none
  timeValue : Option Int := none
deriving DecidableEq, Repr

/-- JS `url.split('?')[0]`: the prefix of the url before the first `?` (the
whole url when it has no query string). -/
def splitQueryArgs (url : String) : String :=
  String.mk (url.toList.takeWhile (fun c => c ≠ '?'))

/-- `removeGetData(msg, data)`: reporting name for a generic XHR completion.
With a truthy message, HTTP method and url, the name is
`msg + "." + method + url-before-the-first-"?"`; otherwise the fixed sentinel
`"xhr.malformed_report"`. -/
def removeGetData (msg : String) (data : Payload) : String :=
  match data.network with
  | some nw =>
      if msg ≠ "" ∧ jsTruthyS nw.type = true ∧ jsTruthyS nw.url = true then
        msg ++ "." ++ nw.type.getD "" ++ splitQueryArgs (nw.url.getD "")
      else "xhr.malformed_report"
  | none => "xhr.malformed_report"

/-- JS `a || b || c` chain over the error-kind candidates of
`parseErrorScreen`. -/
def jsOrStr (o : Option String) (d : String) : String :=
  match o with
  | some s => if s = "" then d else s
  | none => d

/-- `parseErrorScreen(msg, data)`: reporting name for an `error_screen`
message, `"screen.error." + errorKind [+ "." + httpStatus]`. -/
def parseErrorScreen (_msg : String) (data : Payload) : String :=
  let parts : List String :=
    match data.action with
    | some a => [jsOrStr a.key (jsOrStr a.title "unknown")]
    | none => []
  let parts := parts ++
    (match data.network with
     | some nw =>
        match nw.status with
        | some s => if s > 399 then [toString s] else []
        | none => []
     | none => [])
  let parts := if parts = [] then ["unknown"] else parts
  "screen.error." ++ String.intercalate "." parts

/-- A value of the mediator-to-KPI translation table: `pass` is the JS `null`
entry (use the mediator name unchanged), `rename` a literal string, `compute`
a function of the message and payload that may return no name. -/
inductive KPIEntry where
  | pass
  | rename (s : String)
  | compute (f : String → Payload → Option String)

/-- The static `MediatorToKPINameTable`; message names without an entry map to
`none` (JS `undefined`). -/
def MediatorToKPINameTable : String → Option KPIEntry
  | "service" => some (.compute fun _ data => some ("screen." ++ data.name.getD "undefined"))
  | "cancel_state" => some (.rename "screen.cancel")
  | "primary_user_authenticating" => some (.rename "window.redirect_to_primary")
  | "dom_loading" => some (.rename "window.dom_loading")
  | "window_unload" => some (.rename "window.unload")
  | "channel_established" => some (.rename "window.channel_established")
  | "user_can_interact" => some (.rename "user.can_interact")
  | "generate_assertion" => some .pass
  | "assertion_generated" => some .pass
  | "user_staged" => some (.rename "user.user_staged")
  | "user_confirmed" => some (.rename "user.user_confirmed")
  | "email_staged" => some (.rename "user.email_staged")
  | "email_confirmed" => some (.rename "user.email_confirmed")
  | "reset_password_staged" => some (.rename "user.reset_password_staged")
  | "reset_password_confirmed" => some (.rename "user.reset_password_confirmed")
  | "reverify_email_staged" => some (.rename "user.reverify_email_staged")
  | "reverify_email_confirmed" => some (.rename "user.reverify_email_confirmed")
  | "notme" => some (.rename "user.logout")
  | "enter_password" => some (.rename "authenticate.enter_password")
  | "password_submit" => some (.rename "authenticate.password_submitted")
  | "authentication_success" => some (.rename "authenticate.password_success")
  | "authentication_fail" => some (.rename "authenticate.password_fail")
  | "xhr_complete" => some (.compute fun msg data => some (removeGetData msg data))
  | "error_screen" => some (.compute fun msg data => some (parseErrorScreen msg data))
  | _ => none

/-- `getKPIName(msg, data)`: dispatch on the table entry; a message with no
entry falls through every `typeof` test and yields `undefined`. -/
def getKPIName (table : String → Option KPIEntry) (msg : String) (data : Payload) :
    Option String :=
  match table msg with
  | some .pass => some msg
  | some (.rename s) => some s
  | some (.compute f) => f msg data
  | none => none

/-- `{width, height}` of `window.screen`. -/
structure ScreenSize where
  width : Int
  height : Int
deriving DecidableEq, Repr

/-- A KPI record: the unit of telemetry for one logical session. Every field is
optional (a fresh record is the empty JS object `{}`). -/
structure KPIRecord where
  event_stream : Option (List Tuple) := none
  sample_rate : Option ℚ := none
  timestamp : Option Int := none
  local_timestamp : Option String := none
  lang : Option String := none
  screen_size : Option ScreenSize := none
  new_account : Option Bool := none
deriving DecidableEq, Repr

/-- Modelled from the spec: the durable key-value store collaborator
`bid.Models.InteractionData` is not among the sources. Per the spec it holds at
most one durable KPI record (`current`); `published` lists the records handed
off to the network collaborator for upload, in order. -/
structure Store where
  current : Option KPIRecord := none
  published : List KPIRecord := []
deriving DecidableEq, Repr

/-- Modelled from the spec: `model.push(record)` has replace-if-absent
semantics for seeding a new durable record (old data that may not have been
published is not clobbered). -/
def modelPush (store : Store) (r : KPIRecord) : Store :=
  match store.current with
  | none => { store with current := some r }
  | some _ => store

/-- Modelled from the spec: `model.setCurrent(record)` overwrites the durable
record. -/
def modelSetCurrent (store : Store) (r : KPIRecord) : Store :=
  { store with current := some r }

/-- Modelled from the spec: `model.publishCurrent(onDone)` reads whatever
record is currently durable, hands it to the network collaborator for upload,
and — regardless of the upload outcome `uploadOk`, which the collaborator
reports — clears the durable slot, then invokes the callback with the
outcome. -/
def modelPublishCurrent (store : Store) (uploadOk : Bool) : Store × Bool :=
  ({ current := none, published := store.published ++ store.current.toList }, uploadOk)

/-- The mutable fields of the module singleton (`self.*`). `samplingEnabled` is
`none` while still undecided (JS `undefined`); `initialEventStream` and
`initialKPIs` are `none` when the JS fields are `null`/`undefined`. Numeric
fields that the JS leaves `undefined` before first assignment are 0 here; no
modelled flow reads them before assigning them. -/
structure ModuleState where
  mediatorToKPINameTable : String → Option KPIEntry := MediatorToKPINameTable
  samplingEnabled : Option Bool := none
  samplesBeingStored : Bool := false
  startTime : Int := 0
  initialEventStream : Option (List Tuple) := none
  initialKPIs : Option KPIRecord := none

/-- `REPEAT_COUNT_INDEX`: the fixed tuple index holding the repeat count. -/
def REPEAT_COUNT_INDEX : Nat := 3

/-- `getCurrentEventStream()`: `undefined` when sampling is explicitly
disabled; the durable record's stream (defaulted to `[]`) when samples are
being stored; the in-memory buffer otherwise. -/
def getCurrentEventStream (st : ModuleState) (store : Store) : Option (List Tuple) :=
  if st.samplingEnabled = some false then none
  else if st.samplesBeingStored then
    some (((store.current.getD {}).event_stream).getD [])
  else st.initialEventStream

/-- `setCurrentEventStream(eventStream)`: write the stream back to whichever
medium is currently active. -/
def setCurrentEventStream (st : ModuleState) (store : Store) (eventStream : List Tuple) :
    ModuleState × Store :=
  if st.samplesBeingStored then
    let d := store.current.getD {}
    (st, modelSetCurrent store { d with event_stream := some eventStream })
  else
    ({ st with initialEventStream := some eventStream }, store)

/-- `getCurrentKPIs()`: `undefined` when sampling is explicitly disabled; the
durable record when samples are being stored; the in-memory buffer
otherwise. -/
def getCurrentKPIs (st : ModuleState) (store : Store) : Option KPIRecord :=
  if st.samplingEnabled = some false then none
  else if st.samplesBeingStored then store.current
  else st.initialKPIs

/-- `/^xhr_complete/.test(name)`. -/
def isXhrCompleteEvent (name : String) : Bool := name.take 12 = "xhr_complete"

/-- `preventDuplicateXhrEvents(eventName)`: if the candidate name is an XHR
completion and equals the name of the last tuple of the current stream, bump
that tuple's repeat count in place (defaulting from 1 to 2) and write the
stream back, returning the mutated tuple; otherwise return nothing (JS
`undefined`). -/
def preventDuplicateXhrEvents (st : ModuleState) (store : Store) (eventName : String) :
    Option (ModuleState × Store × Tuple) :=
  match getCurrentEventStream st store with
  | some eventStream =>
      if isXhrCompleteEvent eventName then
        match eventStream.getLast? with
        | some lastEvent =>
            if jsGet lastEvent 0 = JsVal.str eventName then
              let eventCallCount := jsIncr (jsOr1 (jsGet lastEvent REPEAT_COUNT_INDEX))
              let lastEvent2 := jsSet lastEvent REPEAT_COUNT_INDEX eventCallCount
              let q := setCurrentEventStream st store (eventStream.dropLast ++ [lastEvent2])
              some (q.1, q.2, lastEvent2)
            else none
        | none => none
      else none
  | none => none

/-- The uniform shift applied to a tuple by a start-time correction:
`event[1] += delta`. -/
def shiftTuple (delta : Int) (e : Tuple) : Tuple := jsSet e 1 (jsAdd (jsGet e 1) delta)

/-- `updateStartTime(newStartTime)`: re-base every already-recorded offset by
`delta = startTime − newStartTime`, then adopt the new start time. -/
def updateStartTime (st : ModuleState) (store : Store) (newStartTime : Int) :
    ModuleState × Store :=
  match getCurrentEventStream st store with
  | some eventStream =>
      if eventStream ≠ [] then
        let delta := st.startTime - newStartTime
        let q := setCurrentEventStream st store (eventStream.map (shiftTuple delta))
        ({ q.1 with startTime := newStartTime }, q.2)
      else ({ st with startTime := newStartTime }, store)
  | none => ({ st with startTime := newStartTime }, store)

/-- `addEvent(msg, data)`, with the current clock `now` passed explicitly.
Returns the updated state and store, and the appended tuple when a new tuple
was recorded (`none` when the event was dropped, deduplicated into the
previous tuple, or sampling is disabled). -/
def addEvent (st : ModuleState) (store : Store) (msg : String) (data : Payload) (now : Int) :
    ModuleState × Store × Option Tuple :=
  let p : ModuleState × Store :=
    if msg = "start_time" then
      match data.timeValue with
      | some t => updateStartTime st store t
      | none => (st, store)
    else (st, store)
  let st1 := p.1
  let store1 := p.2
  if st1.samplingEnabled = some false then (st1, store1, none)
  else
    match getKPIName st1.mediatorToKPINameTable msg data with
    | none => (st1, store1, none)
    | some eventName =>
        if eventName = "" then (st1, store1, none)
        else
          match preventDuplicateXhrEvents st1 store1 eventName with
          | some q => (q.1, q.2.1, none)
          | none =>
              let offset := jsEventTime data.eventTime now - st1.startTime
              let eventData : Tuple :=
                [JsVal.str eventName, JsVal.num offset] ++
                  (match data.duration with
                   | some dur => if dur ≠ 0 then [JsVal.num dur] else []
                   | none => [])
              match getCurrentEventStream st1 store1 with
              | some eventStream =>
                  let q := setCurrentEventStream st1 store1 (eventStream ++ [eventData])
                  (q.1, q.2, some eventData)
              | none => (st1, store1, some eventData)

/-- A sequence of mediator events `(msg, data, now)` fed through `addEvent`. -/
def runEvents (st : ModuleState) (store : Store) (evs : List (String × Payload × Int)) :
    ModuleState × Store :=
  evs.foldl (fun q ev => ((addEvent q.1 q.2 ev.1 ev.2.1 ev.2.2).1,
                          (addEvent q.1 q.2 ev.1 ev.2.1 ev.2.2).2.1)) (st, store)

/-- `TEN_MINS_IN_MS`. -/
def TEN_MINS_IN_MS : Int := 10 * 60 * 1000

/-- The probabilistic decision `Math.random() <= sampleRate`, with the uniform
draw made explicit. -/
def sampleDecision (draw sampleRate : ℚ) : Bool := draw ≤ sampleRate

/-- DOM collaborators read by `beginSampling`. -/
structure Env where
  lang : Option String := none
  screen : Option ScreenSize := none
deriving DecidableEq, Repr

/-- The one-time session context delivered by the network collaborator. -/
structure SessionContext where
  data_sample_rate : Option ℚ := none
  server_time : Int := 0
deriving DecidableEq, Repr

/-- `beginSampling(context)`, with the uniform draw `draw` made explicit.
If `samplingEnabled` is still undecided, fix it to `draw <= sampleRate`. If
sampling is (now) disabled, return unchanged. Otherwise merge the session data
into the buffered record, push it as the new durable record, discard the
buffers and mark samples as durably stored. The merge
`_.extend(self.initialKPIs, ...)` needs a non-null target; once the buffers
have been discarded (`null`) the merge has no well-defined result and the
outcome is modelled as `none` (an exception). -/
def beginSampling (draw : ℚ) (env : Env) (ctx : SessionContext)
    (st : ModuleState) (store : Store) : Option (ModuleState × Store) :=
  let sampleRate : ℚ := ctx.data_sample_rate.getD 0
  let st1 :=
    match st.samplingEnabled with
    | none => { st with samplingEnabled := some (sampleDecision draw sampleRate) }
    | some _ => st
  if st1.samplingEnabled = some true then
    let roundedServerTime := ctx.server_time / TEN_MINS_IN_MS * TEN_MINS_IN_MS
    match st1.initialKPIs with
    | none => none
    | some initialKPIs =>
        let newKPIs : KPIRecord :=
          { initialKPIs with
            event_stream := st1.initialEventStream,
            sample_rate := some sampleRate,
            timestamp := some roundedServerTime,
            local_timestamp := some (jsDateToString st1.startTime),
            lang := jsOrNull env.lang,
            new_account := some false }
        let newKPIs :=
          match env.screen with
          | some scr => { newKPIs with screen_size := some scr }
          | none => newKPIs
        let store1 := modelPush store newKPIs
        some ({ st1 with
                  initialEventStream := none,
                  initialKPIs := none,
                  samplesBeingStored := true }, store1)
  else some (st1, store)

/-- `publishCurrent(done)`: hand the previous durable record off for upload and
clear the slot, then — inside the completion callback, once the session
context has arrived — begin sampling; finally report
`interaction_data_send_complete`/`_error` and the upload status. -/
def publishCurrent (draw : ℚ) (env : Env) (ctx : SessionContext) (uploadOk : Bool)
    (st : ModuleState) (store : Store) : Option (ModuleState × Store × String × Bool) :=
  let q := modelPublishCurrent store uploadOk
  match beginSampling draw env ctx st q.1 with
  | none => none
  | some (st1, store1) =>
      some (st1, store1,
        (if q.2 then "interaction_data_send_complete" else "interaction_data_send_error"),
        q.2)

/-- Externally observable steps of module start, in temporal order. -/
inductive Action where
  | publishPrevious (r : Option KPIRecord)
  | samplingDecision
deriving DecidableEq, Repr

/-- Options passed to `Module.start`. -/
structure StartOptions where
  samplingEnabled : Option Bool := none
  continuation : Bool := false

/-- `Module.start(options)`. On a continuation, resume from the durable record
if present (no publish, no decision), else disable sampling and stop. On a
normal start, initialise the in-memory buffers and immediately publish the
previous session's record, with the sampling decision sequenced inside the
publish completion callback; the action trace records that order. -/
def moduleStart (opts : StartOptions) (now : Int) (draw : ℚ) (env : Env)
    (ctx : SessionContext) (uploadOk : Bool) (store : Store) :
    Option (ModuleState × Store × List Action) :=
  let st : ModuleState := { samplingEnabled := opts.samplingEnabled }
  if opts.continuation then
    match store.current with
    | some lastSessionsKPIs =>
        some ({ st with
                  startTime := jsDateParse lastSessionsKPIs.local_timestamp,
                  samplingEnabled := some true,
                  samplesBeingStored := true }, store, [])
    | none => some ({ st with samplingEnabled := some false }, store, [])
  else
    let st := { st with
                  startTime := now,
                  initialEventStream := some ([] : List Tuple),
                  initialKPIs := some {},
                  samplesBeingStored := false }
    match publishCurrent draw env ctx uploadOk st store with
    | none => none
    | some (st1, store1, _msg, _ok) =>
        some (st1, store1, [Action.publishPrevious store.current, Action.samplingDecision])

/-! ### The consecutive-duplicate invariant of event streams -/

/-- Whether a tuple's name slot holds an XHR-completion reporting name. -/
def isXhrTupleName : JsVal → Bool
  | .str s => isXhrCompleteEvent s
  | _ => false

/-- Adjacent tuples `a, b` form a duplicate pair when `b` carries an
XHR-completion name equal to `a`'s name. -/
def dupXhrPair (a b : Tuple) : Bool :=
  isXhrTupleName (jsGet b 0) && decide (jsGet a 0 = jsGet b 0)

/-- The violation the spec's invariant forbids: adjacent duplicate
XHR-completion names with the repeat count absent on the second tuple. -/
def adjacentDupViolation (a b : Tuple) : Bool :=
  dupXhrPair a b && decide (jsGet b REPEAT_COUNT_INDEX = JsVal.undef)

/-- The invariant the recorder actually maintains: no two adjacent tuples
carry the same XHR-completion name at all. -/
def noDupXhrB : List Tuple → Bool
  | a :: b :: t => !dupXhrPair a b && noDupXhrB (b :: t)
  | _ => true

/-- The invariant as the spec states it: no two adjacent tuples have the same
XHR-completion name with the repeat count absent on the second. -/
def streamDedupInvariant : List Tuple → Bool
  | a :: b :: t => !adjacentDupViolation a b && streamDedupInvariant (b :: t)
  | _ => true

/-- The recorder's stream invariant as a predicate on module states: whatever
stream is currently active has no adjacent duplicate XHR-completion names. -/
def StreamInv (st : ModuleState) (store : Store) : Prop :=
  ∀ es, getCurrentEventStream st store = some es → noDupXhrB es = true

/-! ### Shared concrete fixtures -/

/-- A fresh, pre-decision recording state: sampling undecided, buffers
initialised, start time 0 (the state right after a non-continuation
`Module.start`, before `beginSampling` has run). -/
def stFresh : ModuleState :=
  { samplingEnabled := none, samplesBeingStored := false, startTime := 0,
    initialEventStream := some [], initialKPIs := some {} }

/-- The empty durable store. -/
def store0 : Store := {}

/-- A well-formed XHR completion payload (GET of the session-context API). -/
def pXhr : Payload :=
  { network := some { type := some "GET", url := some "/wsapi/session_context" },
    eventTime := some 100 }

/-- The same XHR completion payload, observed later. -/
def pXhr2 : Payload :=
  { network := some { type := some "GET", url := some "/wsapi/session_context" },
    eventTime := some 200 }

/-- An XHR completion payload whose url carries a query string. -/
def pC3 : Payload :=
  { network := some { type := some "GET",
                      url := some "/wsapi/session_context?allow_unverified=true" } }

/-- The concrete pre-correction state of the C5 witness: two tuples at offsets
10 and 30, start time 100. -/
def stC5 : ModuleState :=
  { stFresh with
      startTime := 100,
      initialEventStream := some [[JsVal.str "a", JsVal.num 10], [JsVal.str "b", JsVal.num 30]] }

/-- A fresh state whose sampling decision has already come out enabled. -/
def stEnabled : ModuleState := { stFresh with samplingEnabled := some true }

/-- A fresh state whose sampling decision has already come out disabled. -/
def stDisabled : ModuleState := { stFresh with samplingEnabled := some false }

/-- A session context with sample rate 1 and a server time off the 10-minute
boundary (the spec's end-to-end example). -/
def ctxRate1 : SessionContext := { data_sample_rate := some 1, server_time := 1000003 }

/-- A durable record left over from a previous session. -/
def recPrev : KPIRecord := { local_timestamp := some "12345" }

/-- The reporting name of `pXhr`/`pXhr2` events. -/
def xhrName : String := "xhr_complete.GET/wsapi/session_context"

/-- Mediator event: an XHR completion. -/
def evXhr : String × Payload × Int := ("xhr_complete", pXhr, 0)

/-- Mediator event: a different (non-XHR) event between the completions. -/
def evCancel : String × Payload × Int := ("cancel_state", { eventTime := some 150 }, 0)

/-- Mediator event: the XHR completion observed again after the interleaving
event. -/
def evXhr2 : String × Payload × Int := ("xhr_complete", pXhr2, 0)

/-- The module after recording one XHR completion from the fresh state. -/
def stepXhr : ModuleState × Store × Option Tuple :=
  addEvent stFresh store0 "xhr_complete" pXhr 0

/-- The tuple produced by collapsing a second identical XHR completion into
the one recorded by `stepXhr`. -/
def collapsedXhrTuple : Tuple :=
  [JsVal.str xhrName, JsVal.num 100, JsVal.undef, JsVal.num 2]

/-- The module state holding exactly the collapsed tuple. -/
def stCollapsed : ModuleState :=
  { stFresh with initialEventStream := some [collapsedXhrTuple] }

/-- A store still holding the previous session's durable record. -/
def storePrev : Store := { current := some recPrev, published := [] }

/-! ### Basic facts about the JS array primitives -/

theorem jsGet_nil (j : Nat) : jsGet [] j = JsVal.undef := rfl

theorem jsGet_jsSet_self (a : Tuple) (i : Nat) (v : JsVal) :
    jsGet (jsSet a i v) i = v := by
  induction i generalizing a with
  | zero => cases a <;> rfl
  | succ i ih => cases a <;> simp [jsSet, jsGet, ih]

theorem jsGet_jsSet_ne (a : Tuple) (i j : Nat) (v : JsVal) (h : i ≠ j) :
    jsGet (jsSet a i v) j = jsGet a j := by
  induction i generalizing a j with
  | zero =>
    cases a with
    | nil =>
      cases j with
      | zero => exact absurd rfl h
      | succ k => rfl
    | cons x t =>
      cases j with
      | zero => exact absurd rfl h
      | succ k => rfl
  | succ i ih =>
    cases a with
    | nil =>
      cases j with
      | zero => rfl
      | succ k => simpa [jsSet, jsGet] using ih [] k (by omega)
    | cons x t =>
      cases j with
      | zero => rfl
      | succ k => simpa [jsSet, jsGet] using ih t k (by omega)

theorem le_length_jsSet (a : Tuple) (i : Nat) (v : JsVal) :
    i + 1 ≤ (jsSet a i v).length := by
  induction i generalizing a with
  | zero => cases a <;> simp [jsSet]
  | succ i ih =>
    cases a with
    | nil =>
      have h := ih ([] : Tuple)
      simp only [jsSet, List.length_cons]
      omega
    | cons x t =>
      have h := ih t
      simp only [jsSet, List.length_cons]
      omega

/-! ### Read-after-write facts for the active event stream -/

theorem getStream_setStream (st : ModuleState) (store : Store) (es : List Tuple) :
    getCurrentEventStream (setCurrentEventStream st store es).1
      (setCurrentEventStream st store es).2
      = if st.samplingEnabled = some false then none else some es := by
  by_cases hb : st.samplesBeingStored <;>
    simp [getCurrentEventStream, setCurrentEventStream, modelSetCurrent, hb]

theorem samplingEnabled_setStream (st : ModuleState) (store : Store) (es : List Tuple) :
    (setCurrentEventStream st store es).1.samplingEnabled = st.samplingEnabled := by
  by_cases hb : st.samplesBeingStored <;> simp [setCurrentEventStream, hb]

/-! ### C1 — translation of unmapped message names -/

/-- C1, counterexample: the claim says an unmapped message name passes through
unchanged and `addEvent` records a tuple under the raw name. In fact, for the
unmapped name `"some_unmapped_message"` the translation yields no name at all
(`none`, JS `undefined`), and `addEvent` records nothing: the buffered stream
stays empty. -/
theorem claim_C1_counterexample :
    getKPIName MediatorToKPINameTable "some_unmapped_message" {} ≠ some "some_unmapped_message" ∧
    (addEvent stFresh store0 "some_unmapped_message" {} 7).2.2 = none ∧
    getCurrentEventStream (addEvent stFresh store0 "some_unmapped_message" {} 7).1
      (addEvent stFresh store0 "some_unmapped_message" {} 7).2.1 = some [] := by
  refine ⟨by decide, rfl, rfl⟩

/-- C1, amended: a message name mapped to the null sentinel passes through
unchanged (and is recorded under the raw name), but a message name with no
table entry yields no reporting name, and `addEvent` drops the event entirely,
leaving state and store untouched. -/
theorem claim_C1_amended :
    (∀ msg data, MediatorToKPINameTable msg = none →
        getKPIName MediatorToKPINameTable msg data = none) ∧
    (∀ msg data, MediatorToKPINameTable msg = some KPIEntry.pass →
        getKPIName MediatorToKPINameTable msg data = some msg) ∧
    (∀ st store msg data now, msg ≠ "start_time" →
        st.mediatorToKPINameTable msg = none →
        addEvent st store msg data now = (st, store, none)) ∧
    getCurrentEventStream (addEvent stFresh store0 "generate_assertion" {} 123).1
        (addEvent stFresh store0 "generate_assertion" {} 123).2.1
      = some [[JsVal.str "generate_assertion", JsVal.num 123]] := by
  refine ⟨?_, ?_, ?_, rfl⟩
  · intro msg data h
    simp [getKPIName, h]
  · intro msg data h
    simp [getKPIName, h]
  · intro st store msg data now hmsg htab
    by_cases hs : st.samplingEnabled = some false <;>
      simp [addEvent, hmsg, hs, getKPIName, htab]

/-- C1, witness for the amended theorem at concrete inputs. -/
theorem claim_C1_witness :
    getKPIName MediatorToKPINameTable "some_unmapped_message" {} = none ∧
    getKPIName MediatorToKPINameTable "generate_assertion" {} = some "generate_assertion" ∧
    addEvent stFresh store0 "another_unmapped_message" {} 3 = (stFresh, store0, none) :=
  ⟨claim_C1_amended.1 "some_unmapped_message" {} rfl,
   claim_C1_amended.2.1 "generate_assertion" {} rfl,
   claim_C1_amended.2.2.1 stFresh store0 "another_unmapped_message" {} 3 (by decide) rfl⟩

/-! ### C2 — the sampling decision at the boundary rates -/

/-- C2, counterexample: the claim says rate 0 disables sampling for every draw
in `[0,1)`. The draw 0 lies in `[0,1)`, yet `0 <= 0` holds, so the decision
comes out enabled; running `beginSampling` with rate 0 on that draw fixes
`samplingEnabled = true`. -/
theorem claim_C2_counterexample :
    (0:ℚ) ≤ 0 ∧ (0:ℚ) < 1 ∧ sampleDecision 0 0 = true ∧
    (beginSampling 0 {} { data_sample_rate := some 0 } stFresh store0).map
        (fun p => p.1.samplingEnabled) = some (some true) := by
  refine ⟨le_refl 0, by norm_num, by decide, by decide⟩

/-- C2, amended: for every draw in `[0,1)` the decision is `draw <= rate`;
rate 1 always enables sampling, and rate 0 disables it exactly for the draws
strictly greater than 0 (the draw 0 still enables it). -/
theorem claim_C2_amended (draw : ℚ) (h0 : 0 ≤ draw) (h1 : draw < 1) :
    sampleDecision draw 1 = true ∧
    (sampleDecision draw 0 = false ↔ 0 < draw) ∧
    ∀ rate : ℚ, (sampleDecision draw rate = true ↔ draw ≤ rate) := by
  refine ⟨?_, ?_, ?_⟩
  · simp [sampleDecision]
    exact le_of_lt h1
  · simp [sampleDecision, not_le]
  · intro rate
    simp [sampleDecision]

/-- C2, witness for the amended theorem at the concrete draw 1/2. -/
theorem claim_C2_witness :
    sampleDecision (1/2 : ℚ) 1 = true ∧ sampleDecision (1/2 : ℚ) 0 = false := by
  have h := claim_C2_amended (1/2 : ℚ) (by norm_num) (by norm_num)
  exact ⟨h.1, h.2.1.mpr (by norm_num)⟩

/-! ### C3 — reporting names of XHR completion events -/

/-- C3, counterexample: the claim says the reporting name is
`"xhr." + method + strippedUrl`. The code prefixes the raw mediator name
instead: for the `xhr_complete` message the name starts with
`"xhr_complete."`, not `"xhr."`. -/
theorem claim_C3_counterexample :
    removeGetData "xhr_complete" pC3 = "xhr_complete.GET/wsapi/session_context" ∧
    removeGetData "xhr_complete" pC3 ≠ "xhr.GET/wsapi/session_context" := by
  refine ⟨by decide, by decide⟩

/-- C3, amended: for an XHR completion payload carrying a (truthy) HTTP method
and url, the reporting name is the raw message name, a dot, the method, and
the url with its query string stripped; a payload missing either field maps to
the fixed `"xhr.malformed_report"` sentinel; and the `xhr_complete` table
entry always returns a name (total, never throws). -/
theorem claim_C3_amended (msg : String) (data : Payload) (nw : NetworkInfo) (t u : String)
    (hn : data.network = some nw) (ht : nw.type = some t) (hu : nw.url = some u)
    (htt : t ≠ "") (hut : u ≠ "") (hm : msg ≠ "") :
    removeGetData msg data = msg ++ "." ++ t ++ splitQueryArgs u ∧
    (∀ d2 : Payload, d2.network = none → removeGetData msg d2 = "xhr.malformed_report") ∧
    (∀ d2 nw2, d2.network = some nw2 →
        (jsTruthyS nw2.type = false ∨ jsTruthyS nw2.url = false) →
        removeGetData msg d2 = "xhr.malformed_report") ∧
    (∀ d2 : Payload, getKPIName MediatorToKPINameTable "xhr_complete" d2
        = some (removeGetData "xhr_complete" d2)) := by
  refine ⟨?_, ?_, ?_, fun d2 => rfl⟩
  · simp [removeGetData, hn, ht, hu, jsTruthyS, htt, hut, hm]
  · intro d2 h
    simp [removeGetData, h]
  · intro d2 nw2 h hfalsy
    rcases hfalsy with hf | hf <;> simp [removeGetData, h, hf]

/-- C3, witness for the amended theorem at a concrete payload with a query
string. -/
theorem claim_C3_witness :
    removeGetData "xhr_complete" pC3
      = "xhr_complete" ++ "." ++ "GET"
          ++ splitQueryArgs "/wsapi/session_context?allow_unverified=true" :=
  (claim_C3_amended "xhr_complete" pC3 _ "GET" "/wsapi/session_context?allow_unverified=true"
    rfl rfl rfl (by decide) (by decide) (by decide)).1

/-! ### C5 — retroactive start-time correction -/

theorem getStream_set_startTime (st : ModuleState) (store : Store) (x : Int) :
    getCurrentEventStream { st with startTime := x } store
      = getCurrentEventStream st store := rfl

theorem jsGet_shiftTuple_one (d : Int) (e : Tuple) :
    jsGet (shiftTuple d e) 1 = jsAdd (jsGet e 1) d := by
  simp [shiftTuple, jsGet_jsSet_self]

theorem jsGet_shiftTuple_ne (d : Int) (e : Tuple) (j : Nat) (h : j ≠ 1) :
    jsGet (shiftTuple d e) j = jsGet e j := by
  simpa [shiftTuple] using jsGet_jsSet_ne e 1 j (jsAdd (jsGet e 1) d) (by omega)

theorem samplingEnabled_ne_false_of_getStream (st : ModuleState) (store : Store)
    (es : List Tuple) (hes : getCurrentEventStream st store = some es) :
    st.samplingEnabled ≠ some false := by
  intro hfalse
  simp [getCurrentEventStream, hfalse] at hes

/-- C5: a start-time correction from `st.startTime` to `tNew` (delta
`d = old − new`) rewrites the current stream to its uniform shift: every tuple
previously at offset `o` afterwards sits at offset `o + d`, and both the
relative order and the relative spacing of all previously recorded offsets are
preserved. -/
theorem claim_C5 (st : ModuleState) (store : Store) (tNew : Int) (es : List Tuple)
    (hes : getCurrentEventStream st store = some es) :
    ∃ es', getCurrentEventStream (updateStartTime st store tNew).1
        (updateStartTime st store tNew).2 = some es' ∧
      es' = es.map (shiftTuple (st.startTime - tNew)) ∧
      (∀ i : Nat, es'[i]? = (es[i]?).map (shiftTuple (st.startTime - tNew))) ∧
      (∀ (i : Nat) (e : Tuple) (o : Int), es[i]? = some e → jsGet e 1 = JsVal.num o →
          (es'[i]?).map (fun e2 => jsGet e2 1)
            = some (JsVal.num (o + (st.startTime - tNew)))) ∧
      (∀ (i j : Nat) (ei ej : Tuple) (oi oj : Int), es[i]? = some ei → es[j]? = some ej →
          jsGet ei 1 = JsVal.num oi → jsGet ej 1 = JsVal.num oj →
          ((oi + (st.startTime - tNew) ≤ oj + (st.startTime - tNew)) ↔ oi ≤ oj) ∧
          (oj + (st.startTime - tNew)) - (oi + (st.startTime - tNew)) = oj - oi) := by
  have hsen := samplingEnabled_ne_false_of_getStream st store es hes
  have hmain : getCurrentEventStream (updateStartTime st store tNew).1
      (updateStartTime st store tNew).2
      = some (es.map (shiftTuple (st.startTime - tNew))) := by
    unfold updateStartTime
    rw [hes]
    by_cases hne : es = []
    · subst hne
      simpa [getStream_set_startTime] using hes
    · simp only [hne, ne_eq, not_false_eq_true, if_true]
      rw [getStream_set_startTime, getStream_setStream, if_neg hsen]
  refine ⟨es.map (shiftTuple (st.startTime - tNew)), hmain, rfl, ?_, ?_, ?_⟩
  · intro i
    simp [List.getElem?_map]
  · intro i e o hi ho
    simp [List.getElem?_map, hi, jsGet_shiftTuple_one, ho, jsAdd]
  · intro i j ei ej oi oj hi hj hoi hoj
    constructor
    · omega
    · omega

/-- C5, witness: correcting the start time from 100 to 40 (delta 60) shifts
the recorded offsets to 70 and 90. -/
theorem claim_C5_witness :
    ∃ es', getCurrentEventStream (updateStartTime stC5 store0 40).1
        (updateStartTime stC5 store0 40).2 = some es' ∧
      es' = [[JsVal.str "a", JsVal.num 10], [JsVal.str "b", JsVal.num 30]].map (shiftTuple 60) ∧
      (∀ i : Nat, es'[i]?
        = ([[JsVal.str "a", JsVal.num 10], [JsVal.str "b", JsVal.num 30]][i]?).map (shiftTuple 60)) := by
  have h := claim_C5 stC5 store0 40
    [[JsVal.str "a", JsVal.num 10], [JsVal.str "b", JsVal.num 30]] rfl
  obtain ⟨es', h1, h2, h3, _, _⟩ := h
  exact ⟨es', h1, h2, h3⟩

/-! ### C7 — contents of the durable record on an enabled decision -/

/-- C7: when the sampling decision comes out enabled with sample rate `r` and
server time `ctx.server_time`, the record pushed into the (cleared) durable
store carries the buffered events as `event_stream`, `sample_rate = r`,
`timestamp` equal to the server time rounded down to the previous 10-minute
multiple, `local_timestamp` equal to the string form of the start time, and
`new_account = false`; the in-memory buffers are discarded and the session
marked as durably storing. -/
theorem claim_C7 (draw r : ℚ) (env : Env) (ctx : SessionContext) (st : ModuleState)
    (store : Store) (k : KPIRecord) (es : List Tuple)
    (hu : st.samplingEnabled = none)
    (hr : ctx.data_sample_rate = some r)
    (hd : sampleDecision draw r = true)
    (hk : st.initialKPIs = some k) (he : st.initialEventStream = some es)
    (hs : store.current = none) :
    (beginSampling draw env ctx st store).map
        (fun p => ((p.2.current.map fun rec =>
            (rec.event_stream, rec.sample_rate, rec.timestamp,
             rec.local_timestamp, rec.new_account)),
          p.1.initialEventStream, p.1.initialKPIs, p.1.samplesBeingStored))
      = some (some (some es, some r,
            some (ctx.server_time / TEN_MINS_IN_MS * TEN_MINS_IN_MS),
            some (jsDateToString st.startTime), some false),
          none, none, true) ∧
    (ctx.server_time / TEN_MINS_IN_MS * TEN_MINS_IN_MS ≤ ctx.server_time ∧
     ctx.server_time < ctx.server_time / TEN_MINS_IN_MS * TEN_MINS_IN_MS + TEN_MINS_IN_MS ∧
     TEN_MINS_IN_MS ∣ ctx.server_time / TEN_MINS_IN_MS * TEN_MINS_IN_MS) := by
  constructor
  · have hrate : ctx.data_sample_rate.getD 0 = r := by rw [hr]; rfl
    cases hscr : env.screen <;>
      simp [beginSampling, hrate, hu, hd, hk, he, hs, modelPush, hscr]
  · refine ⟨?_, ?_, dvd_mul_left _ _⟩ <;>
      · unfold TEN_MINS_IN_MS
        omega

/-- C7, witness: the spec's end-to-end example — sample rate 1, server time
1,000,003 ms — yields `timestamp = 600000` together with the other fields. -/
theorem claim_C7_witness :
    (beginSampling 0 {} ctxRate1 stFresh store0).map
        (fun p => ((p.2.current.map fun rec =>
            (rec.event_stream, rec.sample_rate, rec.timestamp,
             rec.local_timestamp, rec.new_account)),
          p.1.initialEventStream, p.1.initialKPIs, p.1.samplesBeingStored))
      = some (some (some [], some 1, some 600000, some "0", some false), none, none, true) := by
  have h := (claim_C7 0 1 {} ctxRate1 stFresh store0 {} [] rfl rfl (by decide)
    rfl rfl rfl).1
  simpa using h

/-! ### C4 — beginSampling once the decision is concrete -/

/-- C4, counterexample: with `samplingEnabled` already holding the concrete
boolean `true`, a call to `beginSampling` is not a no-op — it flips
`samplesBeingStored` from `false` to `true` and pushes a new durable record
into the empty slot. -/
theorem claim_C4_counterexample :
    stEnabled.samplingEnabled = some true ∧
    stEnabled.samplesBeingStored = false ∧
    store0.current = none ∧
    (beginSampling 0 {} ctxRate1 stEnabled store0).map
        (fun p => (p.1.samplesBeingStored, p.2.current.isSome)) = some (true, true) := by
  exact ⟨rfl, rfl, rfl, by decide⟩

/-- C4, amended: once `samplingEnabled` holds `false`, every subsequent
`beginSampling` call is a no-op (state and store returned unchanged). When it
already holds `true`, a call is not a no-op: it rebuilds a record from the
current buffers, pushes it (seeding the durable slot when the slot is empty)
and sets `samplesBeingStored`. -/
theorem claim_C4_amended :
    (∀ (draw : ℚ) (env : Env) (ctx : SessionContext) (st : ModuleState) (store : Store),
        st.samplingEnabled = some false →
        beginSampling draw env ctx st store = some (st, store)) ∧
    (∀ (draw : ℚ) (env : Env) (ctx : SessionContext) (st : ModuleState) (store : Store)
        (k : KPIRecord),
        st.samplingEnabled = some true → st.initialKPIs = some k →
        (beginSampling draw env ctx st store).map
            (fun p => (p.1.samplesBeingStored, p.2.current.isSome)) = some (true, true)) := by
  constructor
  · intro draw env ctx st store h
    simp [beginSampling, h]
  · intro draw env ctx st store k ht hk
    cases hscr : env.screen <;> cases hcur : store.current <;>
      simp [beginSampling, ht, hk, modelPush, hscr, hcur]

/-- C4, witness for the amended theorem: a disabled state is left untouched; an
enabled state pushes and flips the storage flag. -/
theorem claim_C4_witness :
    beginSampling 0 {} {} stDisabled store0 = some (stDisabled, store0) ∧
    (beginSampling 0 {} ctxRate1 stEnabled store0).map
        (fun p => (p.1.samplesBeingStored, p.2.current.isSome)) = some (true, true) :=
  ⟨claim_C4_amended.1 0 {} {} stDisabled store0 rfl,
   claim_C4_amended.2 0 {} ctxRate1 stEnabled store0 {} rfl rfl⟩

/-! ### C8 — publish-before-decide ordering on a normal start -/

theorem beginSampling_isSome (draw : ℚ) (env : Env) (ctx : SessionContext)
    (st : ModuleState) (store : Store) (k : KPIRecord) (hk : st.initialKPIs = some k) :
    (beginSampling draw env ctx st store).isSome = true := by
  rcases hse : st.samplingEnabled with _ | b <;>
    simp only [beginSampling, hse] <;>
    split <;>
    simp [hk]

theorem beginSampling_published (draw : ℚ) (env : Env) (ctx : SessionContext)
    (st : ModuleState) (store : Store) (q : ModuleState × Store)
    (h : beginSampling draw env ctx st store = some q) :
    q.2.published = store.published := by
  simp only [beginSampling] at h
  split at h
  · split at h
    · exact absurd h (by simp)
    · injection h with h
      subst h
      simp only [modelPush]
      split <;> rfl
  · injection h with h
    subst h
    rfl

/-- C8: on every non-continuation start, the previous durable record is handed
off for publication first and the sampling decision runs second (strictly
inside the publish completion callback), whatever the draw, rate and upload
outcome; the previous record reaches the published list regardless of the new
session's own sampling outcome. -/
theorem claim_C8 (opts : StartOptions) (now : Int) (draw : ℚ) (env : Env)
    (ctx : SessionContext) (uploadOk : Bool) (store : Store)
    (hc : opts.continuation = false) :
    ∃ st' store2,
      moduleStart opts now draw env ctx uploadOk store
        = some (st', store2, [Action.publishPrevious store.current, Action.samplingDecision]) ∧
      store2.published = store.published ++ store.current.toList ∧
      [Action.publishPrevious store.current, Action.samplingDecision][0]?
        = some (Action.publishPrevious store.current) ∧
      [Action.publishPrevious store.current, Action.samplingDecision][1]?
        = some Action.samplingDecision := by
  rcases hq : beginSampling draw env ctx
      { ({ samplingEnabled := opts.samplingEnabled } : ModuleState) with
          startTime := now,
          initialEventStream := some ([] : List Tuple),
          initialKPIs := some {},
          samplesBeingStored := false }
      (modelPublishCurrent store uploadOk).1 with _ | q
  · have hs := beginSampling_isSome draw env ctx
      { ({ samplingEnabled := opts.samplingEnabled } : ModuleState) with
          startTime := now,
          initialEventStream := some ([] : List Tuple),
          initialKPIs := some {},
          samplesBeingStored := false }
      (modelPublishCurrent store uploadOk).1 {} rfl
    rw [hq] at hs
    simp at hs
  · refine ⟨q.1, q.2, ?_, ?_, rfl, rfl⟩
    · simp [moduleStart, hc, publishCurrent, hq]
    · have hp := beginSampling_published draw env ctx _ _ q hq
      rw [hp]
      rfl

/-- C8, witness: a concrete normal start over a store holding a previous
record; the record is published and the trace orders publish before decide. -/
theorem claim_C8_witness :
    ∃ st' store2,
      moduleStart {} 77 0 {} {} true storePrev
        = some (st', store2,
            [Action.publishPrevious (some recPrev), Action.samplingDecision]) ∧
      store2.published = [recPrev] := by
  obtain ⟨st', store2, h1, h2, _, _⟩ := claim_C8 {} 77 0 {} {} true storePrev rfl
  exact ⟨st', store2, h1, by simpa [storePrev] using h2⟩

/-! ### C9 — continuation resume -/

theorem addEvent_disabled (st : ModuleState) (store : Store) (msg : String) (data : Payload)
    (now : Int) (h : st.samplingEnabled = some false) :
    (addEvent st store msg data now).2 = (store, none) ∧
    (addEvent st store msg data now).1.initialEventStream = st.initialEventStream ∧
    (addEvent st store msg data now).1.samplingEnabled = some false := by
  by_cases hmsg : msg = "start_time"
  · rcases htv : data.timeValue with _ | t
    · simp [addEvent, hmsg, htv, h]
    · simp [addEvent, hmsg, htv, h, updateStartTime, getCurrentEventStream]
  · simp [addEvent, hmsg, h]

/-- C9: a continuation start with a durable record resumes with
`samplingEnabled = true`, samples stored durably, and `startTime` the parsed
`local_timestamp` of that record, without publishing (store and trace
untouched, no decision action); a continuation start with no durable record
fixes `samplingEnabled = false`, after which `addEvent` never touches the
store, never returns a tuple, and never grows the in-memory buffer. -/
theorem claim_C9 :
    (∀ (opts : StartOptions) (now : Int) (draw : ℚ) (env : Env) (ctx : SessionContext)
        (uploadOk : Bool) (store : Store) (r : KPIRecord),
        opts.continuation = true → store.current = some r →
        moduleStart opts now draw env ctx uploadOk store
          = some ({ ({ samplingEnabled := opts.samplingEnabled } : ModuleState) with
                      startTime := jsDateParse r.local_timestamp,
                      samplingEnabled := some true,
                      samplesBeingStored := true }, store, [])) ∧
    (∀ (opts : StartOptions) (now : Int) (draw : ℚ) (env : Env) (ctx : SessionContext)
        (uploadOk : Bool) (store : Store),
        opts.continuation = true → store.current = none →
        moduleStart opts now draw env ctx uploadOk store
          = some ({ ({ samplingEnabled := opts.samplingEnabled } : ModuleState) with
                      samplingEnabled := some false }, store, [])) ∧
    (∀ (st : ModuleState) (store : Store) (msg : String) (data : Payload) (now : Int),
        st.samplingEnabled = some false →
        (addEvent st store msg data now).2 = (store, none) ∧
        (addEvent st store msg data now).1.initialEventStream = st.initialEventStream ∧
        (addEvent st store msg data now).1.samplingEnabled = some false) := by
  refine ⟨?_, ?_, ?_⟩
  · intro opts now draw env ctx uploadOk store r hc hcur
    simp [moduleStart, hc, hcur]
  · intro opts now draw env ctx uploadOk store hc hcur
    simp [moduleStart, hc, hcur]
  · intro st store msg data now h
    exact addEvent_disabled st store msg data now h

/-- C9, witness: resuming over a store holding `recPrev` adopts its parsed
local timestamp; resuming over an empty store disables sampling, and a
subsequent `addEvent` is inert. -/
theorem claim_C9_witness :
    moduleStart { continuation := true } 0 0 {} {} true storePrev
      = some ({ ({ samplingEnabled := none } : ModuleState) with
                  startTime := jsDateParse recPrev.local_timestamp,
                  samplingEnabled := some true,
                  samplesBeingStored := true }, storePrev, []) ∧
    moduleStart { continuation := true } 0 0 {} {} true store0
      = some ({ ({ samplingEnabled := none } : ModuleState) with
                  samplingEnabled := some false }, store0, []) ∧
    (addEvent stDisabled store0 "xhr_complete" pXhr 5).2 = (store0, none) :=
  ⟨claim_C9.1 { continuation := true } 0 0 {} {} true storePrev recPrev rfl rfl,
   claim_C9.2.1 { continuation := true } 0 0 {} {} true store0 rfl rfl,
   (claim_C9.2.2 stDisabled store0 "xhr_complete" pXhr 5 rfl).1⟩

/-! ### C6 — deduplication of consecutive XHR completions -/

theorem jsGet_cons_zero (v : JsVal) (t : Tuple) : jsGet (v :: t) 0 = v := rfl

theorem dupXhrPair_congr (a a' b b' : Tuple) (ha : jsGet a' 0 = jsGet a 0)
    (hb : jsGet b' 0 = jsGet b 0) : dupXhrPair a' b' = dupXhrPair a b := by
  simp [dupXhrPair, ha, hb]

theorem noDupXhrB_map_shift (d : Int) : ∀ es : List Tuple,
    noDupXhrB (es.map (shiftTuple d)) = noDupXhrB es
  | [] => rfl
  | [_] => rfl
  | a :: b :: t => by
    have h1 := jsGet_shiftTuple_ne d a 0 (by omega)
    have h2 := jsGet_shiftTuple_ne d b 0 (by omega)
    have hrec := noDupXhrB_map_shift d (b :: t)
    simp only [List.map_cons] at hrec ⊢
    simp [noDupXhrB, dupXhrPair, h1, h2, hrec]

theorem noDupXhrB_append : ∀ (l : List Tuple) (x : Tuple),
    noDupXhrB (l ++ [x])
      = (noDupXhrB l && (match l.getLast? with
          | some a => !dupXhrPair a x
          | none => true))
  | [], x => by simp [noDupXhrB]
  | [a], x => by simp [noDupXhrB, List.getLast?]
  | a :: b :: t, x => by
    have hrec := noDupXhrB_append (b :: t) x
    simp only [List.cons_append] at hrec ⊢
    rw [show noDupXhrB (a :: b :: (t ++ [x]))
          = (!dupXhrPair a b && noDupXhrB (b :: (t ++ [x]))) from rfl,
        hrec,
        show noDupXhrB (a :: b :: t) = (!dupXhrPair a b && noDupXhrB (b :: t)) from rfl,
        List.getLast?_cons_cons,
        Bool.and_assoc]

theorem noDupXhrB_replace_last (l : List Tuple) (a b : Tuple)
    (h : jsGet b 0 = jsGet a 0) : noDupXhrB (l ++ [b]) = noDupXhrB (l ++ [a]) := by
  rw [noDupXhrB_append, noDupXhrB_append]
  cases hl : l.getLast? with
  | none => rfl
  | some c => simp [dupXhrPair, h]

theorem streamInv_set (st : ModuleState) (store : Store) (es' : List Tuple)
    (h : noDupXhrB es' = true) :
    StreamInv (setCurrentEventStream st store es').1 (setCurrentEventStream st store es').2 := by
  intro es2 hes2
  rw [getStream_setStream] at hes2
  split at hes2
  · cases hes2
  · cases hes2
    exact h

theorem streamInv_updateStartTime (st : ModuleState) (store : Store) (t : Int)
    (h : StreamInv st store) :
    StreamInv (updateStartTime st store t).1 (updateStartTime st store t).2 := by
  unfold updateStartTime
  rcases hes : getCurrentEventStream st store with _ | es
  · intro es2 hes2
    rw [getStream_set_startTime, hes] at hes2
    cases hes2
  · by_cases hne : es = []
    · subst hne
      simp only [ne_eq, not_true_eq_false, if_false]
      intro es2 hes2
      rw [getStream_set_startTime] at hes2
      exact h es2 hes2
    · simp only [hne, ne_eq, not_false_eq_true, if_true]
      intro es2 hes2
      rw [getStream_set_startTime, getStream_setStream] at hes2
      split at hes2
      · cases hes2
      · cases hes2
        rw [noDupXhrB_map_shift]
        exact h es hes

theorem preventDuplicate_eq_some (st : ModuleState) (store : Store) (name : String)
    (q2 : ModuleState × Store × Tuple)
    (hc : preventDuplicateXhrEvents st store name = some q2) :
    ∃ es last, getCurrentEventStream st store = some es ∧ es.getLast? = some last ∧
      jsGet last 0 = JsVal.str name ∧ isXhrCompleteEvent name = true ∧
      q2.2.2 = jsSet last REPEAT_COUNT_INDEX (jsIncr (jsOr1 (jsGet last REPEAT_COUNT_INDEX))) ∧
      (q2.1, q2.2.1) = setCurrentEventStream st store
        (es.dropLast
          ++ [jsSet last REPEAT_COUNT_INDEX (jsIncr (jsOr1 (jsGet last REPEAT_COUNT_INDEX)))]) := by
  rcases hes : getCurrentEventStream st store with _ | es
  · simp [preventDuplicateXhrEvents, hes] at hc
  · by_cases hx : isXhrCompleteEvent name
    · rcases hlast : es.getLast? with _ | last
      · simp [preventDuplicateXhrEvents, hes, hx, hlast] at hc
      · by_cases hname : jsGet last 0 = JsVal.str name
        · simp only [preventDuplicateXhrEvents, hes, hx, hlast, hname, if_true,
            if_pos] at hc
          cases hc
          exact ⟨es, last, rfl, hlast, hname, hx, rfl, rfl⟩
        · simp [preventDuplicateXhrEvents, hes, hx, hlast, hname] at hc
    · simp [preventDuplicateXhrEvents, hes, hx] at hc

theorem streamInv_preventDuplicate (st : ModuleState) (store : Store) (name : String)
    (q2 : ModuleState × Store × Tuple) (h : StreamInv st store)
    (hc : preventDuplicateXhrEvents st store name = some q2) :
    StreamInv q2.1 q2.2.1 := by
  obtain ⟨es, last, hes, hlast, _, _, _, hset⟩ := preventDuplicate_eq_some st store name q2 hc
  have hinv : noDupXhrB
      (es.dropLast
        ++ [jsSet last REPEAT_COUNT_INDEX (jsIncr (jsOr1 (jsGet last REPEAT_COUNT_INDEX)))])
      = true := by
    rw [noDupXhrB_replace_last _ _ _
          (jsGet_jsSet_ne last REPEAT_COUNT_INDEX 0 _ (by simp [REPEAT_COUNT_INDEX])),
        List.dropLast_append_getLast? last (Option.mem_def.mpr hlast)]
    exact h es hes
  have := streamInv_set st store _ hinv
  rw [← hset] at this
  intro es2 hes2
  exact this es2 hes2

theorem preventDuplicate_eq_none_pair (st : ModuleState) (store : Store) (name : String)
    (es : List Tuple) (last : Tuple)
    (hes : getCurrentEventStream st store = some es) (hlast : es.getLast? = some last)
    (hc : preventDuplicateXhrEvents st store name = none) (x : Tuple)
    (hx0 : jsGet x 0 = JsVal.str name) :
    dupXhrPair last x = false := by
  by_cases hxc : isXhrCompleteEvent name
  · by_cases hname : jsGet last 0 = JsVal.str name
    · simp [preventDuplicateXhrEvents, hes, hxc, hlast, hname] at hc
    · simp [dupXhrPair, hx0, hname]
  · simp [dupXhrPair, hx0, isXhrTupleName, hxc]

theorem streamInv_addEvent (st : ModuleState) (store : Store) (msg : String)
    (data : Payload) (now : Int) (h : StreamInv st store) :
    StreamInv (addEvent st store msg data now).1 (addEvent st store msg data now).2.1 := by
  unfold addEvent
  have hstep : ∀ (p : ModuleState × Store),
      (p = if msg = "start_time" then
          match data.timeValue with
          | some t => updateStartTime st store t
          | none => (st, store)
        else (st, store)) → StreamInv p.1 p.2 := by
    intro p hp
    subst hp
    by_cases hmsg : msg = "start_time"
    · rcases htv : data.timeValue with _ | t
      · simp only [hmsg, htv, if_true]
        exact h
      · simp only [hmsg, htv, if_true]
        exact streamInv_updateStartTime st store t h
    · simp only [if_neg hmsg]
      exact h
  generalize hp : (if msg = "start_time" then
      match data.timeValue with
      | some t => updateStartTime st store t
      | none => (st, store)
    else (st, store)) = p
  have h1 : StreamInv p.1 p.2 := hstep p hp.symm
  by_cases hdis : p.1.samplingEnabled = some false
  · simp only [hdis, if_true, if_pos]
    exact h1
  · simp only [hdis, if_false, if_neg, not_false_eq_true]
    rcases hname : getKPIName p.1.mediatorToKPINameTable msg data with _ | name
    · exact h1
    · by_cases hempty : name = ""
      · simp only [hempty, if_true, if_pos]
        exact h1
      · simp only [hempty, if_false, if_neg, not_false_eq_true]
        rcases hcol : preventDuplicateXhrEvents p.1 p.2 name with _ | q2
        · rcases hes : getCurrentEventStream p.1 p.2 with _ | es
          · exact h1
          · apply streamInv_set
            rw [noDupXhrB_append]
            cases hlast : es.getLast? with
            | none => simpa using h1 es hes
            | some last =>
                have hpair := preventDuplicate_eq_none_pair p.1 p.2 name es last hes hlast hcol
                  ([JsVal.str name,
                      JsVal.num (jsEventTime data.eventTime now - p.1.startTime)] ++
                    (match data.duration with
                     | some dur => if dur ≠ 0 then [JsVal.num dur] else []
                     | none => [])) rfl
                simp only [List.cons_append, List.nil_append, ite_not] at hpair
                simp [h1 es hes, hpair]
        · exact streamInv_preventDuplicate p.1 p.2 name q2 h1 hcol

theorem streamInv_runEvents (evs : List (String × Payload × Int)) :
    ∀ (st : ModuleState) (store : Store), StreamInv st store →
      StreamInv (runEvents st store evs).1 (runEvents st store evs).2 := by
  induction evs with
  | nil =>
      intro st store h
      simpa [runEvents] using h
  | cons ev evs ih =>
      intro st store h
      have h2 := streamInv_addEvent st store ev.1 ev.2.1 ev.2.2 h
      have h3 := ih (addEvent st store ev.1 ev.2.1 ev.2.2).1
        (addEvent st store ev.1 ev.2.1 ev.2.2).2.1 h2
      simpa [runEvents] using h3

theorem streamDedup_of_noDup : ∀ es : List Tuple,
    noDupXhrB es = true → streamDedupInvariant es = true
  | [], _ => rfl
  | [_], _ => rfl
  | a :: b :: t, h => by
    rw [show noDupXhrB (a :: b :: t) = (!dupXhrPair a b && noDupXhrB (b :: t)) from rfl] at h
    simp only [Bool.and_eq_true, Bool.not_eq_true'] at h
    rw [show streamDedupInvariant (a :: b :: t)
        = (!adjacentDupViolation a b && streamDedupInvariant (b :: t)) from rfl]
    simp [adjacentDupViolation, h.1, streamDedup_of_noDup (b :: t) h.2]

/-- C6: two consecutive identical XHR completions collapse into one tuple with
`repeatCount = 2`; a third increments it to 3; an interleaved different event
resets deduplication (the next identical pair starts a fresh tuple while the
earlier count survives). Moreover the recorder preserves the no-adjacent-
duplicates stream invariant across every `addEvent` call and every event
sequence, so in every reachable stream no two adjacent tuples share an
XHR-completion name with the repeat count absent on the second. -/
theorem claim_C6 :
    getCurrentEventStream (runEvents stFresh store0 [evXhr, evXhr]).1
        (runEvents stFresh store0 [evXhr, evXhr]).2
      = some [[JsVal.str xhrName, JsVal.num 100, JsVal.undef, JsVal.num 2]] ∧
    getCurrentEventStream (runEvents stFresh store0 [evXhr, evXhr, evXhr]).1
        (runEvents stFresh store0 [evXhr, evXhr, evXhr]).2
      = some [[JsVal.str xhrName, JsVal.num 100, JsVal.undef, JsVal.num 3]] ∧
    getCurrentEventStream
        (runEvents stFresh store0 [evXhr, evXhr, evXhr, evCancel, evXhr2, evXhr2]).1
        (runEvents stFresh store0 [evXhr, evXhr, evXhr, evCancel, evXhr2, evXhr2]).2
      = some [[JsVal.str xhrName, JsVal.num 100, JsVal.undef, JsVal.num 3],
              [JsVal.str "screen.cancel", JsVal.num 150],
              [JsVal.str xhrName, JsVal.num 200, JsVal.undef, JsVal.num 2]] ∧
    (∀ (st : ModuleState) (store : Store) (msg : String) (data : Payload) (now : Int),
        StreamInv st store →
        StreamInv (addEvent st store msg data now).1 (addEvent st store msg data now).2.1) ∧
    (∀ (st : ModuleState) (store : Store) (evs : List (String × Payload × Int)),
        StreamInv st store →
        StreamInv (runEvents st store evs).1 (runEvents st store evs).2) ∧
    (∀ (st : ModuleState) (store : Store) (es : List Tuple),
        StreamInv st store → getCurrentEventStream st store = some es →
        streamDedupInvariant es = true) := by
  refine ⟨by decide, by decide, by decide, streamInv_addEvent, ?_, ?_⟩
  · intro st store evs h
    exact streamInv_runEvents evs st store h
  · intro st store es h hes
    exact streamDedup_of_noDup es (h es hes)

/-- C6, witness: the invariant conjuncts applied to the fresh state and its
two-event run. -/
theorem claim_C6_witness :
    StreamInv (addEvent stFresh store0 "xhr_complete" pXhr 0).1
      (addEvent stFresh store0 "xhr_complete" pXhr 0).2.1 ∧
    StreamInv (runEvents stFresh store0 [evXhr, evXhr]).1
      (runEvents stFresh store0 [evXhr, evXhr]).2 ∧
    streamDedupInvariant [[JsVal.str xhrName, JsVal.num 100, JsVal.undef, JsVal.num 2]]
      = true := by
  have hinv : StreamInv stFresh store0 := by
    intro es hes
    rw [show getCurrentEventStream stFresh store0 = some [] from rfl] at hes
    cases hes
    rfl
  refine ⟨claim_C6.2.2.2.1 stFresh store0 "xhr_complete" pXhr 0 hinv,
    claim_C6.2.2.2.2.1 stFresh store0 [evXhr, evXhr] hinv, ?_⟩
  exact claim_C6.2.2.2.2.2 (runEvents stFresh store0 [evXhr, evXhr]).1
    (runEvents stFresh store0 [evXhr, evXhr]).2 _
    (claim_C6.2.2.2.2.1 stFresh store0 [evXhr, evXhr] hinv) claim_C6.1

/-! ### C10 — the repeat count lives at fixed tuple index 3 -/

/-- C10: `REPEAT_COUNT_INDEX` is the fixed index 3; writing there extends a
tuple to length at least 4 (never the compact three-element form) and leaves
index 2 untouched; hence every tuple collapsed by `preventDuplicateXhrEvents`
whose original carried no duration keeps `undefined` at the duration position
and is never a three-element `[name, offset, repeatCount]`. -/
theorem claim_C10 :
    REPEAT_COUNT_INDEX = 3 ∧
    (∀ (a : Tuple) (v : JsVal), 4 ≤ (jsSet a REPEAT_COUNT_INDEX v).length) ∧
    (∀ (a : Tuple) (v : JsVal), jsGet a 2 = JsVal.undef →
        jsGet (jsSet a REPEAT_COUNT_INDEX v) 2 = JsVal.undef) ∧
    (∀ (st : ModuleState) (store : Store) (name : String)
        (q2 : ModuleState × Store × Tuple),
        preventDuplicateXhrEvents st store name = some q2 →
        ∃ es last, getCurrentEventStream st store = some es ∧ es.getLast? = some last ∧
          q2.2.2 = jsSet last REPEAT_COUNT_INDEX
            (jsIncr (jsOr1 (jsGet last REPEAT_COUNT_INDEX))) ∧
          (jsGet last 2 = JsVal.undef →
            jsGet q2.2.2 2 = JsVal.undef ∧ q2.2.2.length ≠ 3)) := by
  refine ⟨rfl, ?_, ?_, ?_⟩
  · intro a v
    exact le_length_jsSet a REPEAT_COUNT_INDEX v
  · intro a v h
    rw [jsGet_jsSet_ne a REPEAT_COUNT_INDEX 2 v (by simp [REPEAT_COUNT_INDEX])]
    exact h
  · intro st store name q2 hc
    obtain ⟨es, last, hes, hlast, _, _, hq, _⟩ := preventDuplicate_eq_some st store name q2 hc
    refine ⟨es, last, hes, hlast, hq, ?_⟩
    intro h2
    constructor
    · rw [hq, jsGet_jsSet_ne last REPEAT_COUNT_INDEX 2 _ (by simp [REPEAT_COUNT_INDEX])]
      exact h2
    · rw [hq]
      have hlen := le_length_jsSet last REPEAT_COUNT_INDEX
        (jsIncr (jsOr1 (jsGet last REPEAT_COUNT_INDEX)))
      simp only [REPEAT_COUNT_INDEX] at hlen ⊢
      omega

/-- C10, witness: the concrete collapse of a duration-free tuple has length 4,
`undefined` at index 2, and the count at index 3. -/
theorem claim_C10_witness :
    4 ≤ (jsSet [JsVal.str xhrName, JsVal.num 100] REPEAT_COUNT_INDEX (JsVal.num 2)).length ∧
    jsGet (jsSet [JsVal.str xhrName, JsVal.num 100] REPEAT_COUNT_INDEX (JsVal.num 2)) 2
      = JsVal.undef ∧
    (∃ es last, getCurrentEventStream stepXhr.1 stepXhr.2.1 = some es ∧
      es.getLast? = some last ∧
      (stCollapsed, store0, collapsedXhrTuple).2.2 = jsSet last REPEAT_COUNT_INDEX
        (jsIncr (jsOr1 (jsGet last REPEAT_COUNT_INDEX))) ∧
      (jsGet last 2 = JsVal.undef →
        jsGet (stCollapsed, store0, collapsedXhrTuple).2.2 2 = JsVal.undef ∧
        (stCollapsed, store0, collapsedXhrTuple).2.2.length ≠ 3)) :=
  ⟨claim_C10.2.1 [JsVal.str xhrName, JsVal.num 100] (JsVal.num 2),
   claim_C10.2.2.1 [JsVal.str xhrName, JsVal.num 100] (JsVal.num 2) rfl,
   claim_C10.2.2.2 stepXhr.1 stepXhr.2.1 xhrName (stCollapsed, store0, collapsedXhrTuple) rfl⟩

end BrowserID
